import Mathlib

/-!
Shallow embedding of the ocrdb backend core (src/backend/app): the in-memory
document index (database.py), the storage abstraction (storage.py), the
ingestion pipeline and OCR job runner and retrieval/search/folder endpoints
(api.py), and the data model (models.py).

Strings are modelled by Lean's String, but every operation is implemented
over the underlying character list so that all definitions reduce in the
kernel.  Machine-level concerns (uuid generation, wall-clock timestamps)
are modelled by a counter threaded through the system state; the OCR engine
call and the stdlib mimetypes table are external effects and are passed in
as explicit parameters (an outcome value per potential OCR run, and a
guess function for MIME sniffing).
-/

namespace OcrDb

/-! ### Character/string helpers (kernel-computable models of the Python
string operations used by the source) -/

/-- ASCII lower-casing of one character, the model of Python str.lower
applied characterwise. -/
def chLower (c : Char) : Char :=
  if 65 ≤ c.toNat ∧ c.toNat ≤ 90 then Char.ofNat (c.toNat + 32) else c

/-- Model of Python str.lower. -/
def strLower (s : String) : String := String.mk (s.data.map chLower)

/-- ASCII whitespace test, the model of what Python str.strip removes. -/
def chIsWs (c : Char) : Bool := c == ' ' || c == '\t' || c == '\n' || c == '\r'

/-- Model of Python str.strip() with no argument (used on tag names). -/
def pyStrip (s : String) : String :=
  String.mk (((s.data.dropWhile chIsWs).reverse.dropWhile chIsWs).reverse)

/-- Model of Python str.strip(c) for a single character c. -/
def stripChar (c : Char) (s : String) : String :=
  String.mk (((s.data.dropWhile (· == c)).reverse.dropWhile (· == c)).reverse)

/-- Model of Python str.rstrip(c) for a single character c. -/
def rstripChar (c : Char) (s : String) : String :=
  String.mk ((s.data.reverse.dropWhile (· == c)).reverse)

/-- Split a character list on a separator character. -/
def chSplitAux (sep : Char) : List Char → List Char → List (List Char)
  | [], acc => [acc.reverse]
  | c :: cs, acc =>
    if c == sep then acc.reverse :: chSplitAux sep cs []
    else chSplitAux sep cs (c :: acc)

/-- Model of Python str.split(sep) for a one-character separator. -/
def pySplit (sep : Char) (s : String) : List String :=
  (chSplitAux sep s.data []).map String.mk

/-- Model of Python str.startswith. -/
def strStartsWith (s p : String) : Bool := p.data.isPrefixOf s.data

/-- Model of the Python substring test (needle in haystack). -/
def strContainsSub (s sub : String) : Bool :=
  s.data.tails.any (fun t => sub.data.isPrefixOf t)

/-- Model of os.path.basename for slash-delimited paths. -/
def basename (s : String) : String := (pySplit '/' s).getLastD ""

/-- Model of the extension part of os.path.splitext (leading dots of the
last path component do not start an extension). -/
def extOf (filename : String) : String :=
  let core := (basename filename).data.dropWhile (· == '.')
  if core.contains '.' then
    String.mk ('.' :: (core.reverse.takeWhile (fun c => c != '.')).reverse)
  else ""

/-- Lexicographic comparison of character lists by code point. -/
def chListLe : List Char → List Char → Bool
  | [], _ => true
  | _ :: _, [] => false
  | a :: as, b :: bs =>
    if a.toNat < b.toNat then true
    else if b.toNat < a.toNat then false
    else chListLe as bs

/-- Lexicographic string order, the model of Python string comparison used
by sorted(). -/
def strLe (a b : String) : Bool := chListLe a.data b.data

/-- Insert into a list ordered by a boolean relation (auxiliary to the
model of Python stable sorting). -/
def insertLe (le : α → α → Bool) (x : α) : List α → List α
  | [] => [x]
  | y :: ys => if le x y then x :: y :: ys else y :: insertLe le x ys

/-- Stable insertion sort, the model of Python list.sort / sorted. -/
def sortWith (le : α → α → Bool) : List α → List α
  | [] => []
  | x :: xs => insertLe le x (sortWith le xs)

/-! ### Data model (models.py) -/

/-- models.OCRStatus. -/
inductive OCRStatus where
  | pending
  | processing
  | completed
  | failed
deriving DecidableEq

/-- models.Tag: identity, name, display color. -/
structure Tag where
  id : Nat
  name : String
  color : String := "#808080"
deriving DecidableEq

/-- models.Document.  The open metadata bag is only ever used to hold an
error description, modelled by the meta_error field. -/
structure Document where
  id : Nat
  filename : String
  mime_type : String
  size : Nat
  folder_path : String
  file_path : String
  thumbnail_path : Option String
  upload_date : Nat
  ocr_status : OCRStatus
  ocr_text : Option String
  ocr_engine : Option String
  ocr_engine_version : Option String
  tags : List Tag
  meta_error : Option String
deriving DecidableEq

/-- models.SystemSettings (the fields read by the embedded code paths). -/
structure SystemSettings where
  storage_type : String := "local"
  max_file_size : Nat := 10 * 1024 * 1024
  max_zip_size : Nat := 50 * 1024 * 1024
  default_ocr_engine : String := "tesseract"
deriving DecidableEq

/-- Whole-system state: the InMemoryDB of database.py (documents, tags,
settings) together with the set of stored object paths of storage.py and
the fresh-identifier/clock supply standing for uuid4 and utcnow. -/
structure Sys where
  documents : List Document
  tags : List Tag
  settings : SystemSettings
  storage : List String
  nextId : Nat
  clock : Nat
deriving DecidableEq

/-- The freshly started system: empty index, empty storage, default
settings. -/
def initSys : Sys :=
  { documents := [], tags := [], settings := {}, storage := [], nextId := 0, clock := 0 }

/-- Outcome of one OCR engine invocation, the external effect of
ocr.py: either extracted text together with the processor name and
version, or an OCRError description. -/
inductive OCRRun where
  | ok (text engine engineVersion : String)
  | fail (msg : String)
deriving DecidableEq

/-- One entry of an uploaded ZIP archive as zipfile reports it, plus the
outcome the OCR engine would produce for its bytes. -/
structure ZipEntry where
  filename : String
  file_size : Nat
  is_dir : Bool
  outcome : OCRRun
deriving DecidableEq

/-- An uploaded file: filename, declared content type, byte size, the
archive entries its bytes parse to when it is a ZIP, and the outcome the
OCR engine would produce for its bytes on the single-file path. -/
structure Upload where
  filename : String
  content_type : Option String
  size : Nat
  entries : List ZipEntry
  outcome : OCRRun
deriving DecidableEq

/-- HTTPException as raised by api.py: status code and detail string. -/
structure HErr where
  status : Nat
  detail : String
deriving DecidableEq

def fileTooLargeErr (n : Nat) : HErr :=
  ⟨413, "File too large. Maximum size is " ++ Nat.repr n ++ " bytes"⟩

def zipTooLargeErr (n : Nat) : HErr :=
  ⟨413, "ZIP file too large. Maximum size is " ++ Nat.repr n ++ " bytes"⟩

def emptyArchiveErr : HErr := ⟨400, "No valid files found in ZIP archive"⟩

def docNotFoundErr : HErr := ⟨404, "Document not found"⟩

/-! ### InMemoryDB operations (database.py) -/

/-- InMemoryDB.get_document: dictionary lookup by id. -/
def get_document (s : Sys) (docId : Nat) : Option Document :=
  s.documents.find? (fun d => d.id == docId)

/-- The partial field set passed to InMemoryDB.update_document by the OCR
runner (the only caller embedded here): each some field is written. -/
structure DocUpdate where
  status : Option OCRStatus := none
  text : Option String := none
  engine : Option String := none
  version : Option String := none
  err : Option String := none

/-- Apply one update dictionary to a document (setattr per present key). -/
def applyUpdate (u : DocUpdate) (d : Document) : Document :=
  { d with
    ocr_status := u.status.getD d.ocr_status,
    ocr_text := match u.text with | some t => some t | none => d.ocr_text,
    ocr_engine := match u.engine with | some e => some e | none => d.ocr_engine,
    ocr_engine_version := match u.version with | some v => some v | none => d.ocr_engine_version,
    meta_error := match u.err with | some m => some m | none => d.meta_error }

/-- InMemoryDB.update_document: in-place mutation of the stored document
with the given id. -/
def update_document (s : Sys) (docId : Nat) (u : DocUpdate) : Sys :=
  { s with documents := s.documents.map (fun d => if d.id == docId then applyUpdate u d else d) }

/-- InMemoryDB.get_tag_by_name: first stored tag whose name matches
case-insensitively. -/
def get_tag_by_name (s : Sys) (name : String) : Option Tag :=
  s.tags.find? (fun t => strLower t.name == strLower name)

/-! ### Storage (storage.py, LocalStorage) -/

/-- LocalStorage.save_file: store under a fresh unique name keeping the
original extension; returns the new path. -/
def save_file (s : Sys) (filename : String) : String × Sys :=
  let path := "storage/documents/" ++ Nat.repr s.nextId ++ extOf filename
  (path, { s with storage := s.storage ++ [path], nextId := s.nextId + 1 })

/-- Whether a path resolves in storage (Path.exists in get_file). -/
def storageHas (s : Sys) (path : String) : Bool := s.storage.contains path

/-- StorageBase.create_thumbnail: fetch the stored object, give up (None)
unless its guessed MIME type is an image, otherwise store a derived
thumbnail object; every failure degrades to None. -/
def create_thumbnail (guess : String → Option String) (s : Sys) (path : String) :
    Option String × Sys :=
  if storageHas s path then
    match guess path with
    | some m =>
      if strStartsWith m "image/" then
        let (tp, s2) := save_file s ("thumb_" ++ basename path)
        (some tp, s2)
      else (none, s)
    | none => (none, s)
  else (none, s)

/-! ### OCR job runner (api.process_document_ocr) -/

/-- api.process_document_ocr: silently return when the document is gone;
record PROCESSING; fetch the bytes (StorageError when the path does not
resolve turns the run into FAILED); run the engine; on success record
COMPLETED with text/engine/version, on OCRError or StorageError record
FAILED with the error in the metadata bag. -/
def process_document_ocr (s : Sys) (docId : Nat) (outcome : OCRRun) : Sys :=
  match get_document s docId with
  | none => s
  | some doc =>
    let s1 := update_document s docId { status := some .processing }
    if storageHas s1 doc.file_path then
      match outcome with
      | .ok t e v =>
        update_document s1 docId
          { status := some .completed, text := some t, engine := some e, version := some v }
      | .fail m =>
        update_document s1 docId { status := some .failed, err := some m }
    else
      update_document s1 docId
        { status := some .failed, err := some ("File not found: " ++ doc.file_path) }

/-! ### Ingestion pipeline (api.create_document) -/

/-- Python truthiness filter for an optional string (None and "" are
falsy). -/
def pyTruthy (s : Option String) : Option String :=
  match s with
  | some v => if v == "" then none else some v
  | none => none

/-- file.content_type or mimetypes.guess_type(filename)[0] or
"application/octet-stream". -/
def mimeOf (content_type guessed : Option String) : String :=
  ((pyTruthy content_type).orElse (fun _ => pyTruthy guessed)).getD "application/octet-stream"

/-- The tag names parsed from the comma-separated form field (split then
strip; the per-name emptiness skip happens in the resolution loop). -/
def tagNamesOf (tags : Option String) : List String :=
  match tags with
  | none => []
  | some s => if s == "" then [] else (pySplit ',' s).map pyStrip

/-- One step of the tag resolution loop: skip empty names, reuse an
existing tag under case-insensitive lookup, otherwise create one. -/
def resolveStep (acc : Sys × List Tag) (nm : String) : Sys × List Tag :=
  if nm == "" then acc
  else
    match get_tag_by_name acc.1 nm with
    | some t => (acc.1, acc.2 ++ [t])
    | none =>
      let t : Tag := { id := acc.1.nextId, name := nm }
      ({ acc.1 with tags := acc.1.tags ++ [t], nextId := acc.1.nextId + 1 }, acc.2 ++ [t])

/-- The tag resolution loop of api.create_document. -/
def resolveTags (s : Sys) (tags : Option String) : Sys × List Tag :=
  (tagNamesOf tags).foldl resolveStep (s, [])

/-- The Document record as constructed at ingestion time: status
PENDING, no OCR fields, the resolved tag list attached. -/
def mkIngestDoc (filename mime : String) (size : Nat) (folder_path fpath : String)
    (thumb : Option String) (s1 : Sys) (tl : List Tag) : Document :=
  { id := s1.nextId, filename := filename, mime_type := mime, size := size,
    folder_path := folder_path, file_path := fpath, thumbnail_path := thumb,
    upload_date := s1.clock, ocr_status := .pending, ocr_text := none,
    ocr_engine := none, ocr_engine_version := none, tags := tl, meta_error := none }

/-- The shared tail of both ingestion paths: store the new Document in
the index, run (and wait for) the OCR job, and hand back the stored
document object — which, being the same object the OCR run mutated,
carries the run's outcome. -/
def finishIngest (s1 : Sys) (doc0 : Document) (o : OCRRun) : Document × Sys :=
  let s4 := { s1 with
    documents := s1.documents ++ [doc0],
    nextId := s1.nextId + 1, clock := s1.clock + 1 }
  let s5 := process_document_ocr s4 doc0.id o
  ((get_document s5 doc0.id).getD doc0, s5)

/-- The single-file branch of api.create_document: save the bytes,
derive a thumbnail for images, resolve tags, create the Document with
status PENDING, then run (and wait for) the OCR job. -/
def ingestSingle (guess : String → Option String) (s : Sys) (file : Upload)
    (tags : Option String) (folder_path : String) (mime : String) :
    Except HErr Document × Sys :=
  let ps := save_file s file.filename
  let ts := if strStartsWith mime "image/" then create_thumbnail guess ps.2 ps.1
            else (none, ps.2)
  let rs := resolveTags ts.2 tags
  let doc := mkIngestDoc file.filename mime file.size folder_path ps.1 ts.1 rs.1 rs.2
  let r := finishIngest rs.1 doc file.outcome
  (Except.ok r.1, r.2)

/-- Whether a ZIP entry survives the archive iteration: not a directory,
uncompressed size within the single-file limit, guessed MIME type an
image or PDF. -/
def zipQualifies (guess : String → Option String) (maxFile : Nat) (e : ZipEntry) : Bool :=
  !e.is_dir && decide (e.file_size ≤ maxFile) &&
    (match guess e.filename with
     | some m => strStartsWith m "image/" || m == "application/pdf"
     | none => false)

/-- One iteration of the ZIP-entry loop: skip disqualified entries;
otherwise save the entry bytes, resolve tags, create the Document with
status PENDING, run (and wait for) its OCR job, and record its id in the
created list. -/
def ingestZipEntry (guess : String → Option String) (tags : Option String)
    (folder_path : String) (acc : Sys × List Nat) (e : ZipEntry) : Sys × List Nat :=
  if zipQualifies guess acc.1.settings.max_file_size e then
    let ps := save_file acc.1 e.filename
    let m := (guess e.filename).getD "application/octet-stream"
    let rs := resolveTags ps.2 tags
    let doc := mkIngestDoc (basename e.filename) m e.file_size folder_path ps.1 none rs.1 rs.2
    let r := finishIngest rs.1 doc e.outcome
    (r.2, acc.2 ++ [doc.id])
  else acc

/-- api.create_document, the ingestion entrypoint.  guess stands for
mimetypes.guess_type.  Returns what the endpoint returns (a Document or
an HTTPException) together with the post-call system state. -/
def create_document (guess : String → Option String) (s : Sys) (file : Upload)
    (tags : Option String) (folder_path : String) (_ocr_engine : Option String) :
    Except HErr Document × Sys :=
  if file.size > s.settings.max_file_size then
    (Except.error (fileTooLargeErr s.settings.max_file_size), s)
  else
    let mime := mimeOf file.content_type (guess file.filename)
    if mime == "application/zip" then
      if file.size > s.settings.max_zip_size then
        (Except.error (zipTooLargeErr s.settings.max_zip_size), s)
      else
        let r := file.entries.foldl (ingestZipEntry guess tags folder_path) (s, [])
        match r.2 with
        | [] => (Except.error emptyArchiveErr, r.1)
        | id0 :: _ =>
          match get_document r.1 id0 with
          | some d => (Except.ok d, r.1)
          | none => (Except.error emptyArchiveErr, r.1)
    else ingestSingle guess s file tags folder_path mime

/-! ### Re-OCR and retrieval endpoints (api.py) -/

/-- api.reocr_document: 404 when the document does not exist, otherwise
re-run the OCR job and report that processing started. -/
def reocr_document (s : Sys) (docId : Nat) (_ocr_engine : Option String)
    (outcome : OCRRun) : Except HErr String × Sys :=
  match get_document s docId with
  | none => (Except.error docNotFoundErr, s)
  | some _ => (Except.ok "OCR processing started", process_document_ocr s docId outcome)

/-- api.get_document_original: 404 when the id is unknown; when the
stored object is missing, storage raises StorageError and the endpoint
surfaces it as a 500, not a 404.  On success it streams the bytes;
the model returns the resolved storage path and download filename. -/
def get_document_original (s : Sys) (docId : Nat) : Except HErr (String × String) :=
  match get_document s docId with
  | none => Except.error docNotFoundErr
  | some doc =>
    if storageHas s doc.file_path then Except.ok (doc.file_path, doc.filename)
    else Except.error ⟨500, "File not found: " ++ doc.file_path⟩

/-! ### Search (database.InMemoryDB.search_documents) -/

/-- The text filter predicate: case-insensitive substring of the OCR text
(when that is truthy) or of the filename; t is the raw query text. -/
def textPred (t : String) (d : Document) : Bool :=
  (match d.ocr_text with
   | some s => !(s == "") && strContainsSub (strLower s) (strLower t)
   | none => false)
  || strContainsSub (strLower d.filename) (strLower t)

def filterText (text : Option String) (l : List Document) : List Document :=
  match text with
  | none => l
  | some t => if t == "" then l else l.filter (textPred t)

def tagsPred (tags : List String) (d : Document) : Bool :=
  d.tags.any (fun tg => tags.contains tg.name)

def filterTags (tags : List String) (l : List Document) : List Document :=
  if tags.isEmpty then l else l.filter (tagsPred tags)

def filterFolder (fp : Option String) (l : List Document) : List Document :=
  match fp with
  | none => l
  | some f => if f == "" then l else l.filter (fun d => d.folder_path == f)

def filterMime (ms : List String) (l : List Document) : List Document :=
  if ms.isEmpty then l else l.filter (fun d => ms.contains d.mime_type)

def filterFrom (df : Option Nat) (l : List Document) : List Document :=
  match df with
  | none => l
  | some v => l.filter (fun d => decide (v ≤ d.upload_date))

def filterTo (dt : Option Nat) (l : List Document) : List Document :=
  match dt with
  | none => l
  | some v => l.filter (fun d => decide (d.upload_date ≤ v))

/-- The sort stage: stable sort by the selected key, descending when
sort_order is "desc"; unknown keys leave the order untouched. -/
def sortResults (sort_by sort_order : String) (l : List Document) : List Document :=
  let rev := strLower sort_order == "desc"
  if sort_by == "upload_date" then
    sortWith (fun a b =>
      if rev then decide (b.upload_date ≤ a.upload_date)
      else decide (a.upload_date ≤ b.upload_date)) l
  else if sort_by == "filename" then
    sortWith (fun a b =>
      if rev then strLe b.filename a.filename else strLe a.filename b.filename) l
  else if sort_by == "size" then
    sortWith (fun a b =>
      if rev then decide (b.size ≤ a.size) else decide (a.size ≤ b.size)) l
  else l

/-- InMemoryDB.search_documents: filter by text, tags, folder, MIME
types and date range in sequence, sort, then slice (skip, limit). -/
def search_documents (docs : List Document) (text : Option String) (tags : List String)
    (folder_path : Option String) (mime_types : List String)
    (date_from date_to : Option Nat) (skip limit : Nat)
    (sort_by sort_order : String) : List Document :=
  (((sortResults sort_by sort_order
      (filterTo date_to (filterFrom date_from (filterMime mime_types
        (filterFolder folder_path (filterTags tags (filterText text docs))))))).drop skip).take limit)

/-! ### Folder listing (api.list_folders) -/

/-- The folder prefixes one document contributes: the running prefixes of
its stripped folder path, starting from the root. -/
def folderPrefixes (p : String) : List String :=
  let parts := pySplit '/' (stripChar '/' p)
  (parts.foldl
    (fun (acc : List String × String) part =>
      if part == "" then acc
      else (acc.1 ++ [acc.2 ++ part ++ "/"], acc.2 ++ part ++ "/"))
    (["/"], "/")).1

/-- Set insertion (Python set.add) modelled on a duplicate-free list. -/
def insertNew (acc : List String) (x : String) : List String :=
  if acc.contains x then acc else acc ++ [x]

/-- The folders set accumulated over all documents. -/
def folderSet (docs : List Document) : List String :=
  docs.foldl (fun acc d => (folderPrefixes d.folder_path).foldl insertNew acc) []

/-- One row of the folder listing response. -/
structure FolderEntry where
  path : String
  name : String
  document_count : Nat
deriving DecidableEq

/-- InMemoryDB.list_documents: optional exact folder filter (skipped
when the argument is falsy), then the (skip, limit) slice. -/
def list_documents (s : Sys) (skip limit : Nat) (folder_path : Option String) :
    List Document :=
  let docs := s.documents
  let docs := match folder_path with
    | some fp => if fp == "" then docs else docs.filter (fun d => d.folder_path == fp)
    | none => docs
  (docs.drop skip).take limit

/-- The folder derivation loop of api.list_folders over a document
list: sorted folder set, each with its display name and the count of
documents whose folder_path equals it exactly. -/
def deriveFolders (docs : List Document) : List FolderEntry :=
  (sortWith strLe (folderSet docs)).map (fun f =>
    { path := f,
      name := (let b := basename (rstripChar '/' f); if b == "" then "Root" else b),
      document_count := (docs.filter (fun d => d.folder_path == f)).length })

/-- api.list_folders: fetch documents through list_documents(0, 1000000)
— at most the first 1,000,000 documents of the index — then derive the
folder listing from that list. -/
def list_folders (s : Sys) : List FolderEntry :=
  deriveFolders (list_documents s 0 1000000 none)

/-! ### Operation traces over the system -/

/-- The operations of the ingestion / OCR / re-OCR surface, for stating
invariants over every reachable index state. -/
inductive Op where
  | ingest (guess : String → Option String) (file : Upload) (tags : Option String)
      (folder_path : String) (engine : Option String)
  | reocr (docId : Nat) (engine : Option String) (outcome : OCRRun)

/-- Apply one operation to the system state. -/
def applyOp (s : Sys) : Op → Sys
  | .ingest g f t fp e => (create_document g s f t fp e).2
  | .reocr docId e o => (reocr_document s docId e o).2

/-- Run a trace of operations from a starting state. -/
def runOps (ops : List Op) (s : Sys) : Sys := ops.foldl applyOp s

/-- The per-document field/status relationship that actually holds in
every reachable state: a COMPLETED document has text, engine and version
populated; the three fields are populated together; and populated fields
imply a terminal status (COMPLETED, or FAILED when a failed re-run kept
the fields of an earlier completed run). -/
def DocInv (d : Document) : Prop :=
  (d.ocr_status = .completed → d.ocr_text.isSome = true)
  ∧ d.ocr_text.isSome = d.ocr_engine.isSome
  ∧ d.ocr_engine.isSome = d.ocr_engine_version.isSome
  ∧ (d.ocr_text.isSome = true →
      d.ocr_status = .completed ∨ d.ocr_status = .failed)

/-- DocInv for every document of the index. -/
def SysInv (s : Sys) : Prop := ∀ d ∈ s.documents, DocInv d

/-- Document ids in the index stay below the fresh-id counter. -/
def DocsFresh (s : Sys) : Prop := ∀ d ∈ s.documents, d.id < s.nextId

/-! ### The individual filter constraints, for stating what the search
result set is (a supplied filter constrains, an omitted one does not) -/

def matchText (text : Option String) (d : Document) : Bool :=
  match text with
  | none => true
  | some t => if t == "" then true else textPred t d

def matchTags (tags : List String) (d : Document) : Bool :=
  if tags.isEmpty then true else tagsPred tags d

def matchFolder (fp : Option String) (d : Document) : Bool :=
  match fp with
  | none => true
  | some f => if f == "" then true else d.folder_path == f

def matchMime (ms : List String) (d : Document) : Bool :=
  if ms.isEmpty then true else ms.contains d.mime_type

def matchFrom (df : Option Nat) (d : Document) : Bool :=
  match df with
  | none => true
  | some v => decide (v ≤ d.upload_date)

def matchTo (dt : Option Nat) (d : Document) : Bool :=
  match dt with
  | none => true
  | some v => decide (d.upload_date ≤ v)

/-- The thumbnail step of the single-file path: the derived thumbnail
path (if any) and the state after it, before tag resolution runs. -/
def preThumbState (guess : String → Option String) (s : Sys) (file : Upload)
    (mime : String) : Option String × Sys :=
  let ps := save_file s file.filename
  if strStartsWith mime "image/" then create_thumbnail guess ps.2 ps.1
  else (none, ps.2)

/-- The state reached after the thumbnail step of the single-file path,
on which the tag resolution loop then runs. -/
def preTagState (guess : String → Option String) (s : Sys) (file : Upload)
    (mime : String) : Sys :=
  (preThumbState guess s file mime).2

/-! ### Concrete instances used by the witnesses and counterexamples -/

/-- A trivial MIME sniffing table: nothing is recognised. -/
def guessNone : String → Option String := fun _ => none

/-- A MIME sniffing table recognising the file names used by the ZIP
examples: img* names are PNG images, t* names are plain text. -/
def guessZip : String → Option String := fun n =>
  if strStartsWith (strLower n) "i" then some "image/png"
  else if strStartsWith (strLower n) "t" then some "text/plain"
  else none

/-- A small valid single-file upload whose OCR run succeeds. -/
def pngUpload : Upload :=
  { filename := "a.png", content_type := some "image/png", size := 3,
    entries := [], outcome := .ok "hi" "tesseract" "5.3" }

/-- The document the ingestion of pngUpload produces (its storage object
took fresh id 0, so the document got id 1; the awaited OCR run already
completed it). -/
def pngDocAfter : Document :=
  { id := 1, filename := "a.png", mime_type := "image/png", size := 3,
    folder_path := "/", file_path := "storage/documents/0.png",
    thumbnail_path := none, upload_date := 0, ocr_status := .completed,
    ocr_text := some "hi", ocr_engine := some "tesseract",
    ocr_engine_version := some "5.3", tags := [], meta_error := none }

/-- An upload larger than the default 10 MiB single-file limit. -/
def bigUpload : Upload :=
  { filename := "big.bin", content_type := some "application/octet-stream",
    size := 10 * 1024 * 1024 + 1, entries := [], outcome := .fail "unused" }

/-- Trace: ingest a file whose OCR run succeeds, then re-OCR it with a
run that fails. -/
def opsIngestThenFailedReocr : List Op :=
  [ .ingest guessNone pngUpload none "/" none,
    .reocr 1 none (.fail "engine crashed") ]

/-- Trace: ingest one file whose OCR run succeeds. -/
def opsIngestOk : List Op := [ .ingest guessNone pngUpload none "/" none ]

/-- A 4-entry archive: two qualifying images (one of which will fail
OCR), a plain-text entry, and an image above the single-file limit. -/
def zipUpload : Upload :=
  { filename := "arch.zip", content_type := some "application/zip", size := 100,
    entries := [
      { filename := "img1.png", file_size := 10, is_dir := false,
        outcome := .ok "a" "tesseract" "5.3" },
      { filename := "img2.png", file_size := 20, is_dir := false,
        outcome := .fail "bad" },
      { filename := "t.txt", file_size := 5, is_dir := false,
        outcome := .ok "x" "tesseract" "5.3" },
      { filename := "imgbig.png", file_size := 99999999, is_dir := false,
        outcome := .ok "y" "tesseract" "5.3" } ],
    outcome := .fail "unused" }

/-- An archive none of whose entries qualifies: one plain-text entry. -/
def zipUploadBad : Upload :=
  { filename := "bad.zip", content_type := some "application/zip", size := 50,
    entries := [
      { filename := "t2.txt", file_size := 5, is_dir := false,
        outcome := .ok "x" "tesseract" "5.3" } ],
    outcome := .fail "unused" }

/-- An upload named like a report scan. -/
def reportUpload1 : Upload :=
  { filename := "r1.png", content_type := some "image/png", size := 3,
    entries := [], outcome := .ok "t1" "tesseract" "5.3" }

/-- A second upload named like a report scan. -/
def reportUpload2 : Upload :=
  { filename := "r2.png", content_type := some "image/png", size := 4,
    entries := [], outcome := .ok "t2" "tesseract" "5.3" }

/-- The tag named Invoice of the search examples. -/
def invoiceTag : Tag := { id := 7, name := "Invoice" }

/-- A PDF document in folder /2024/ carrying the Invoice tag. -/
def invoiceDoc : Document :=
  { id := 3, filename := "inv.pdf", mime_type := "application/pdf", size := 1,
    folder_path := "/2024/", file_path := "p1", thumbnail_path := none,
    upload_date := 5, ocr_status := .completed, ocr_text := some "total 40",
    ocr_engine := some "tesseract", ocr_engine_version := some "5.3",
    tags := [invoiceTag], meta_error := none }

/-- The same document with a lower-case tag name, for the AND-composition
example of the search claims. -/
def invoiceDocLower : Document :=
  { invoiceDoc with tags := [{ id := 7, name := "invoice" }] }

/-- A document used by the folder-listing witness. -/
def folderDoc : Document :=
  { id := 0, filename := "f.pdf", mime_type := "application/pdf", size := 1,
    folder_path := "/2024/x/", file_path := "p2", thumbnail_path := none,
    upload_date := 0, ocr_status := .pending, ocr_text := none,
    ocr_engine := none, ocr_engine_version := none, tags := [],
    meta_error := none }

/-- A one-document system used by the folder-listing witness. -/
def folderSys : Sys :=
  { documents := [folderDoc], tags := [], settings := {},
    storage := ["p2"], nextId := 1, clock := 1 }

/-- A document whose stored object will be missing from storage. -/
def missingObjDoc : Document :=
  { id := 0, filename := "m.pdf", mime_type := "application/pdf", size := 1,
    folder_path := "/", file_path := "q", thumbnail_path := none,
    upload_date := 0, ocr_status := .pending, ocr_text := none,
    ocr_engine := none, ocr_engine_version := none, tags := [],
    meta_error := none }

/-- A one-document system whose stored object is missing: the document
references path q, storage holds only path p. -/
def missingObjSys : Sys :=
  { documents := [missingObjDoc], tags := [], settings := {},
    storage := ["p"], nextId := 1, clock := 1 }

end OcrDb

namespace OcrDb

/-! ### List and sort helper lemmas -/

theorem mem_insertLe (le : α → α → Bool) (x : α) (l : List α) (a : α) :
    a ∈ insertLe le x l ↔ a = x ∨ a ∈ l := by
  induction l with
  | nil => simp [insertLe]
  | cons y ys ih =>
    cases h : le x y with
    | true => simp [insertLe, h, List.mem_cons]
    | false =>
      simp [insertLe, h, List.mem_cons, ih]
      tauto

theorem mem_sortWith (le : α → α → Bool) (l : List α) (a : α) :
    a ∈ sortWith le l ↔ a ∈ l := by
  induction l with
  | nil => simp [sortWith]
  | cons x xs ih => simp [sortWith, mem_insertLe, ih, List.mem_cons]

theorem length_insertLe (le : α → α → Bool) (x : α) (l : List α) :
    (insertLe le x l).length = l.length + 1 := by
  induction l with
  | nil => simp [insertLe]
  | cons y ys ih =>
    cases h : le x y with
    | true => simp [insertLe, h]
    | false => simp [insertLe, h, ih]

theorem length_sortWith (le : α → α → Bool) (l : List α) :
    (sortWith le l).length = l.length := by
  induction l with
  | nil => simp [sortWith]
  | cons x xs ih => simp [sortWith, length_insertLe, ih]

/-! ### Search stage lemmas -/

theorem mem_filterText (text : Option String) (l : List Document) (d : Document) :
    d ∈ filterText text l ↔ d ∈ l ∧ matchText text d = true := by
  cases text with
  | none => simp [filterText, matchText]
  | some t => cases h : (t == "") <;> simp [filterText, matchText, h, List.mem_filter]

theorem mem_filterTags (tags : List String) (l : List Document) (d : Document) :
    d ∈ filterTags tags l ↔ d ∈ l ∧ matchTags tags d = true := by
  cases h : tags.isEmpty <;> simp [filterTags, matchTags, h, List.mem_filter]

theorem mem_filterFolder (fp : Option String) (l : List Document) (d : Document) :
    d ∈ filterFolder fp l ↔ d ∈ l ∧ matchFolder fp d = true := by
  cases fp with
  | none => simp [filterFolder, matchFolder]
  | some f => cases h : (f == "") <;> simp [filterFolder, matchFolder, h, List.mem_filter]

theorem mem_filterMime (ms : List String) (l : List Document) (d : Document) :
    d ∈ filterMime ms l ↔ d ∈ l ∧ matchMime ms d = true := by
  cases h : ms.isEmpty <;> simp [filterMime, matchMime, h, List.mem_filter]

theorem mem_filterFrom (df : Option Nat) (l : List Document) (d : Document) :
    d ∈ filterFrom df l ↔ d ∈ l ∧ matchFrom df d = true := by
  cases df <;> simp [filterFrom, matchFrom, List.mem_filter]

theorem mem_filterTo (dt : Option Nat) (l : List Document) (d : Document) :
    d ∈ filterTo dt l ↔ d ∈ l ∧ matchTo dt d = true := by
  cases dt <;> simp [filterTo, matchTo, List.mem_filter]

theorem mem_sortResults (sb so : String) (l : List Document) (d : Document) :
    d ∈ sortResults sb so l ↔ d ∈ l := by
  cases h1 : (sb == "upload_date") <;> cases h2 : (sb == "filename") <;>
    cases h3 : (sb == "size") <;> simp [sortResults, h1, h2, h3, mem_sortWith]

theorem length_sortResults (sb so : String) (l : List Document) :
    (sortResults sb so l).length = l.length := by
  cases h1 : (sb == "upload_date") <;> cases h2 : (sb == "filename") <;>
    cases h3 : (sb == "size") <;> simp [sortResults, h1, h2, h3, length_sortWith]

theorem length_filterText_le (text : Option String) (l : List Document) :
    (filterText text l).length ≤ l.length := by
  cases text with
  | none => simp [filterText]
  | some t => cases h : (t == "") <;> simp [filterText, h, List.length_filter_le]

theorem length_filterTags_le (tags : List String) (l : List Document) :
    (filterTags tags l).length ≤ l.length := by
  cases h : tags.isEmpty <;> simp [filterTags, h, List.length_filter_le]

theorem length_filterFolder_le (fp : Option String) (l : List Document) :
    (filterFolder fp l).length ≤ l.length := by
  cases fp with
  | none => simp [filterFolder]
  | some f => cases h : (f == "") <;> simp [filterFolder, h, List.length_filter_le]

theorem length_filterMime_le (ms : List String) (l : List Document) :
    (filterMime ms l).length ≤ l.length := by
  cases h : ms.isEmpty <;> simp [filterMime, h, List.length_filter_le]

theorem length_filterFrom_le (df : Option Nat) (l : List Document) :
    (filterFrom df l).length ≤ l.length := by
  cases df <;> simp [filterFrom, List.length_filter_le]

theorem length_filterTo_le (dt : Option Nat) (l : List Document) :
    (filterTo dt l).length ≤ l.length := by
  cases dt <;> simp [filterTo, List.length_filter_le]

/-- Membership in the search result is exactly the conjunction of the
individual filter constraints, whenever pagination does not cut the
result (skip 0, limit at least the index size). -/
theorem mem_search_spec (docs : List Document) (text : Option String)
    (tags : List String) (fp : Option String) (ms : List String)
    (df dt : Option Nat) (limit : Nat) (sb so : String) (d : Document)
    (hlim : docs.length ≤ limit) :
    d ∈ search_documents docs text tags fp ms df dt 0 limit sb so ↔
      d ∈ docs ∧ matchText text d = true ∧ matchTags tags d = true
        ∧ matchFolder fp d = true ∧ matchMime ms d = true
        ∧ matchFrom df d = true ∧ matchTo dt d = true := by
  have hlen : (sortResults sb so
      (filterTo dt (filterFrom df (filterMime ms
        (filterFolder fp (filterTags tags (filterText text docs))))))).length ≤ limit := by
    rw [length_sortResults]
    calc (filterTo dt (filterFrom df (filterMime ms
            (filterFolder fp (filterTags tags (filterText text docs)))))).length
        ≤ (filterFrom df (filterMime ms
            (filterFolder fp (filterTags tags (filterText text docs))))).length :=
          length_filterTo_le _ _
      _ ≤ (filterMime ms
            (filterFolder fp (filterTags tags (filterText text docs)))).length :=
          length_filterFrom_le _ _
      _ ≤ (filterFolder fp (filterTags tags (filterText text docs))).length :=
          length_filterMime_le _ _
      _ ≤ (filterTags tags (filterText text docs)).length := length_filterFolder_le _ _
      _ ≤ (filterText text docs).length := length_filterTags_le _ _
      _ ≤ docs.length := length_filterText_le _ _
      _ ≤ limit := hlim
  unfold search_documents
  rw [List.drop_zero, List.take_of_length_le hlen, mem_sortResults, mem_filterTo,
    mem_filterFrom, mem_filterMime, mem_filterFolder, mem_filterTags, mem_filterText]
  tauto

end OcrDb

namespace OcrDb

/-- C6: for every search query, the result set is exactly the documents
satisfying the conjunction of all supplied filters (case-insensitive
substring on filename or extracted text, any-of tag-name membership,
exact folder-path match, MIME-type set membership, inclusive upload-date
range), omitted filters imposing no constraint — whenever pagination does
not cut the result (skip 0, limit at least the index size). -/
theorem C6_search_and_composition (docs : List Document) (text : Option String)
    (tags : List String) (fp : Option String) (ms : List String)
    (df dt : Option Nat) (limit : Nat) (sb so : String) (d : Document)
    (hlim : docs.length ≤ limit) :
    d ∈ search_documents docs text tags fp ms df dt 0 limit sb so ↔
      d ∈ docs ∧ matchText text d = true ∧ matchTags tags d = true
        ∧ matchFolder fp d = true ∧ matchMime ms d = true
        ∧ matchFrom df d = true ∧ matchTo dt d = true :=
  mem_search_spec docs text tags fp ms df dt limit sb so d hlim

/-- Witness for C6: the document tagged invoice in folder /2024/ with
MIME application/pdf is returned by the query on tag invoice AND folder
/2024/, but not when the query additionally filters MIME type to
image/png. -/
theorem C6_search_and_composition_witness :
    invoiceDocLower ∈ search_documents [invoiceDocLower] none ["invoice"]
        (some "/2024/") [] none none 0 20 "upload_date" "desc"
    ∧ invoiceDocLower ∉ search_documents [invoiceDocLower] none ["invoice"]
        (some "/2024/") ["image/png"] none none 0 20 "upload_date" "desc" :=
  ⟨(C6_search_and_composition [invoiceDocLower] none ["invoice"] (some "/2024/") []
      none none 20 "upload_date" "desc" invoiceDocLower (by decide)).mpr (by decide),
   fun h => absurd ((C6_search_and_composition [invoiceDocLower] none ["invoice"]
      (some "/2024/") ["image/png"] none none 20 "upload_date" "desc" invoiceDocLower
      (by decide)).mp h) (by decide)⟩

/-- C10: the search tag filter matches tag names by exact string
equality: a document is in the tag-filtered result exactly when one of
its tags bears literally one of the requested names. -/
theorem C10_tag_filter_case_sensitive (docs : List Document) (ts : List String)
    (limit : Nat) (d : Document) (hlim : docs.length ≤ limit) (hts : ts ≠ []) :
    d ∈ search_documents docs none ts none [] none none 0 limit "upload_date" "desc" ↔
      d ∈ docs ∧ d.tags.any (fun tg => ts.contains tg.name) = true := by
  have hne : ts.isEmpty = false := by
    cases ts with
    | nil => exact absurd rfl hts
    | cons a as => rfl
  rw [mem_search_spec docs none ts none [] none none limit "upload_date" "desc" d hlim]
  simp [matchText, matchTags, matchFolder, matchMime, matchFrom, matchTo, hne, tagsPred]

/-- Witness for C10: a document holding a Tag named Invoice is not
returned by a search filtering on tag name invoice, while the search on
the exact name Invoice does return it. -/
theorem C10_tag_filter_case_sensitive_witness :
    invoiceDoc ∉ search_documents [invoiceDoc] none ["invoice"] none []
        none none 0 20 "upload_date" "desc"
    ∧ invoiceDoc ∈ search_documents [invoiceDoc] none ["Invoice"] none []
        none none 0 20 "upload_date" "desc" :=
  ⟨fun h => absurd ((C10_tag_filter_case_sensitive [invoiceDoc] ["invoice"] 20
      invoiceDoc (by decide) (by decide)).mp h) (by decide),
   (C10_tag_filter_case_sensitive [invoiceDoc] ["Invoice"] 20 invoiceDoc
      (by decide) (by decide)).mpr (by decide)⟩

/-- C3: an upload above the configured single-file limit is rejected
with the 413 FileTooLarge validation error and the system state is
completely untouched: no storage write happened and the document index
is unchanged. -/
theorem C3_oversize_rejected_before_write (guess : String → Option String)
    (s : Sys) (file : Upload) (tags : Option String) (fp : String)
    (eng : Option String) (h : s.settings.max_file_size < file.size) :
    (create_document guess s file tags fp eng).1
        = Except.error (fileTooLargeErr s.settings.max_file_size)
    ∧ (create_document guess s file tags fp eng).2 = s := by
  constructor <;> simp [create_document, h]

/-- Witness for C3: a 10 MiB + 1 byte upload against the default
settings is rejected and leaves the fresh system unchanged. -/
theorem C3_oversize_rejected_before_write_witness :
    (create_document guessNone initSys bigUpload none "/" none).1
        = Except.error (fileTooLargeErr initSys.settings.max_file_size)
    ∧ (create_document guessNone initSys bigUpload none "/" none).2 = initSys :=
  C3_oversize_rejected_before_write guessNone initSys bigUpload none "/" none (by decide)

/-- C9 (amended): retrieval of the original bytes fails NotFound (404)
when the document id is absent; when the document exists but its stored
object is missing, the StorageError surfaces as a server error (500),
not as NotFound. -/
theorem C9_original_retrieval_errors (s : Sys) (docId : Nat) :
    (get_document s docId = none →
      get_document_original s docId = Except.error docNotFoundErr)
    ∧ ∀ doc, get_document s docId = some doc →
        storageHas s doc.file_path = false →
        get_document_original s docId
          = Except.error ⟨500, "File not found: " ++ doc.file_path⟩ := by
  constructor
  · intro h
    simp [get_document_original, h]
  · intro doc h hs
    simp [get_document_original, h, hs]

/-- Witness for C9: an unknown id on the fresh system yields the 404. -/
theorem C9_original_retrieval_errors_witness :
    get_document_original initSys 0 = Except.error docNotFoundErr :=
  (C9_original_retrieval_errors initSys 0).1 (by decide)

/-- Counterexample for C9 as stated: with the stored object missing the
endpoint does not fail NotFound — it returns the 500 StorageError. -/
theorem C9_original_retrieval_counterexample :
    get_document_original missingObjSys 0 = Except.error ⟨500, "File not found: q"⟩
    ∧ get_document_original missingObjSys 0 ≠ Except.error docNotFoundErr := by
  have h : get_document_original missingObjSys 0
      = Except.error ⟨500, "File not found: q"⟩ := by rfl
  refine ⟨h, ?_⟩
  rw [h]
  intro hc
  simp [docNotFoundErr] at hc

/-- C1 (evaluated at the failing input): the ingestion entrypoint awaits
the OCR run before returning, so the Document it returns already has
ocr_status COMPLETED — not PENDING as the claim states. -/
theorem C1_returned_status_not_pending :
    Except.toOption ((create_document guessNone initSys pngUpload none "/" none).1)
        = some pngDocAfter
    ∧ pngDocAfter.ocr_status = OCRStatus.completed
    ∧ OCRStatus.completed ≠ OCRStatus.pending := by
  refine ⟨by decide, by decide, by decide⟩

end OcrDb

namespace OcrDb

/-! ### Folder listing lemmas -/

theorem mem_insertNew (acc : List String) (y x : String) :
    x ∈ insertNew acc y ↔ x ∈ acc ∨ x = y := by
  by_cases h : acc.contains y = true
  · have hy : y ∈ acc := by simpa using h
    unfold insertNew
    rw [if_pos h]
    constructor
    · exact Or.inl
    · rintro (h1 | rfl)
      · exact h1
      · exact hy
  · unfold insertNew
    rw [if_neg h]
    simp [List.mem_append]

theorem mem_foldl_insertNew (l : List String) (acc : List String) (x : String) :
    x ∈ l.foldl insertNew acc ↔ x ∈ acc ∨ x ∈ l := by
  induction l generalizing acc with
  | nil => simp
  | cons y ys ih =>
    simp [List.foldl_cons, ih, mem_insertNew, List.mem_cons]
    tauto

theorem mem_folderSet (docs : List Document) (f : String) :
    f ∈ folderSet docs ↔ ∃ d ∈ docs, f ∈ folderPrefixes d.folder_path := by
  have key : ∀ (ds : List Document) (acc : List String),
      f ∈ ds.foldl (fun acc d => (folderPrefixes d.folder_path).foldl insertNew acc) acc ↔
        f ∈ acc ∨ ∃ d ∈ ds, f ∈ folderPrefixes d.folder_path := by
    intro ds
    induction ds with
    | nil => simp
    | cons d ds ih =>
      intro acc
      simp [List.foldl_cons, ih, mem_foldl_insertNew]
      tauto
  simpa using key docs []

theorem mem_foldl_prefixAcc (parts : List String) (acc : List String × String) (x : String)
    (hx : x ∈ acc.1) :
    x ∈ (parts.foldl
      (fun (acc : List String × String) part =>
        if part == "" then acc
        else (acc.1 ++ [acc.2 ++ part ++ "/"], acc.2 ++ part ++ "/")) acc).1 := by
  induction parts generalizing acc with
  | nil => exact hx
  | cons p ps ih =>
    simp only [List.foldl_cons]
    cases h : (p == "") with
    | true => simpa [h] using ih acc hx
    | false =>
      refine ih _ ?_
      simp [h, List.mem_append]
      exact Or.inl hx

theorem root_mem_folderPrefixes (p : String) : "/" ∈ folderPrefixes p := by
  unfold folderPrefixes
  exact mem_foldl_prefixAcc _ (["/"], "/") "/" (by simp)

theorem deriveFolders_paths (docs : List Document) :
    (deriveFolders docs).map FolderEntry.path = sortWith strLe (folderSet docs) := by
  unfold deriveFolders
  generalize sortWith strLe (folderSet docs) = l
  induction l with
  | nil => rfl
  | cons a l ih => simpa using ih

theorem list_documents_all (s : Sys) :
    list_documents s 0 1000000 none = s.documents.take 1000000 := rfl

/-- C7 (amended): the folder listing is derived from at most the first
1,000,000 documents of the index (the list_documents(0, 1000000) fetch
of the endpoint); over that fetched list it contains exactly every
distinct prefix of every document's folder path, with exact
non-recursive counts, and it contains the root as soon as the index
holds at least one document — an empty index yields an empty listing,
not the root.  For an index within the cap this specializes to the same
characterization over the whole index. -/
theorem C7_folder_listing (s : Sys) (f : String) :
    (f ∈ (list_folders s).map FolderEntry.path ↔
      ∃ d ∈ s.documents.take 1000000, f ∈ folderPrefixes d.folder_path)
    ∧ (∀ e ∈ list_folders s,
        e.document_count
          = ((s.documents.take 1000000).filter (fun d => d.folder_path == e.path)).length)
    ∧ (s.documents ≠ [] → "/" ∈ (list_folders s).map FolderEntry.path)
    ∧ (s.documents.length ≤ 1000000 →
        (f ∈ (list_folders s).map FolderEntry.path ↔
          ∃ d ∈ s.documents, f ∈ folderPrefixes d.folder_path)) := by
  have h1 : ∀ g : String, g ∈ (list_folders s).map FolderEntry.path ↔
      ∃ d ∈ s.documents.take 1000000, g ∈ folderPrefixes d.folder_path := by
    intro g
    unfold list_folders
    rw [list_documents_all, deriveFolders_paths, mem_sortWith, mem_folderSet]
  refine ⟨h1 f, ?_, ?_, ?_⟩
  · intro e he
    unfold list_folders deriveFolders at he
    rw [List.mem_map] at he
    obtain ⟨g, hg, rfl⟩ := he
    rw [list_documents_all]
  · intro hne
    rw [h1 "/"]
    cases hd : s.documents with
    | nil => exact absurd hd hne
    | cons d ds =>
      refine ⟨d, ?_, root_mem_folderPrefixes _⟩
      have htake : (d :: ds).take 1000000 = d :: ds.take 999999 := rfl
      rw [htake]
      exact List.mem_cons_self d _
  · intro hlen
    rw [h1 f, List.take_of_length_le hlen]

/-- Witness for C7: with one document in /2024/x/, both the parent
prefix /2024/ and the root appear in the listing. -/
theorem C7_folder_listing_witness :
    "/2024/" ∈ (list_folders folderSys).map FolderEntry.path
    ∧ "/" ∈ (list_folders folderSys).map FolderEntry.path :=
  ⟨(C7_folder_listing folderSys "/2024/").1.mpr (by decide),
   (C7_folder_listing folderSys "/").2.2.1 (by decide)⟩

/-- Counterexample for C7 as stated: on an empty index the listing is
empty, so it does not always include the root folder. -/
theorem C7_folder_listing_counterexample :
    list_folders initSys = []
    ∧ "/" ∉ (list_folders initSys).map FolderEntry.path := by
  constructor <;> decide

end OcrDb

namespace OcrDb

/-! ### OCR state machine invariant lemmas -/

theorem applyUpdate_id (u : DocUpdate) (d : Document) : (applyUpdate u d).id = d.id := rfl

theorem SysInv_update2 (s : Sys) (docId : Nat) (u1 u2 : DocUpdate) (h : SysInv s)
    (hkeep : ∀ d : Document, DocInv d → DocInv (applyUpdate u2 (applyUpdate u1 d))) :
    SysInv (update_document (update_document s docId u1) docId u2) := by
  intro d hd
  simp only [update_document, List.map_map] at hd
  rw [List.mem_map] at hd
  obtain ⟨d0, hd0, rfl⟩ := hd
  by_cases hid : (d0.id == docId) = true
  · simp only [Function.comp, hid, if_true, applyUpdate_id]
    exact hkeep d0 (h d0 hd0)
  · simpa [Function.comp, hid] using h d0 hd0

theorem process_pres (s : Sys) (docId : Nat) (o : OCRRun) (h : SysInv s) :
    SysInv (process_document_ocr s docId o) := by
  cases hg : get_document s docId with
  | none =>
    simp only [process_document_ocr, hg]
    exact h
  | some doc =>
    simp only [process_document_ocr, hg]
    split
    · cases o with
      | ok t e v =>
        apply SysInv_update2 _ _ _ _ h
        intro d hd
        simp [DocInv, applyUpdate]
      | fail m =>
        apply SysInv_update2 _ _ _ _ h
        intro d hd
        obtain ⟨h1, h2, h3, h4⟩ := hd
        refine ⟨?_, ?_, ?_, ?_⟩
        · intro hc
          exact absurd hc (by simp [applyUpdate])
        · simpa [applyUpdate] using h2
        · simpa [applyUpdate] using h3
        · intro ht
          right
          rfl
    · apply SysInv_update2 _ _ _ _ h
      intro d hd
      obtain ⟨h1, h2, h3, h4⟩ := hd
      refine ⟨?_, ?_, ?_, ?_⟩
      · intro hc
        exact absurd hc (by simp [applyUpdate])
      · simpa [applyUpdate] using h2
      · simpa [applyUpdate] using h3
      · intro ht
        right
        rfl

theorem save_file_documents (s : Sys) (f : String) :
    (save_file s f).2.documents = s.documents := rfl

theorem create_thumbnail_documents (g : String → Option String) (s : Sys) (p : String) :
    (create_thumbnail g s p).2.documents = s.documents := by
  unfold create_thumbnail
  by_cases h1 : storageHas s p = true
  · rw [if_pos h1]
    cases g p with
    | none => rfl
    | some m =>
      by_cases h2 : strStartsWith m "image/" = true
      · simp only [h2, if_true]
        rfl
      · simp only [h2]
        rfl
  · rw [if_neg h1]

theorem resolveStep_documents (acc : Sys × List Tag) (n : String) :
    (resolveStep acc n).1.documents = acc.1.documents := by
  unfold resolveStep
  by_cases h : (n == "") = true
  · rw [if_pos h]
  · rw [if_neg h]
    cases get_tag_by_name acc.1 n <;> rfl

theorem resolveFold_documents (names : List String) (acc : Sys × List Tag) :
    ((names.foldl resolveStep acc).1).documents = acc.1.documents := by
  induction names generalizing acc with
  | nil => rfl
  | cons n ns ih => rw [List.foldl_cons, ih, resolveStep_documents]

theorem resolveTags_documents (s : Sys) (tags : Option String) :
    (resolveTags s tags).1.documents = s.documents := resolveFold_documents _ _

theorem DocInv_pending_none (d : Document) (hst : d.ocr_status = .pending)
    (ht : d.ocr_text = none) (he : d.ocr_engine = none) (hv : d.ocr_engine_version = none) :
    DocInv d := by
  refine ⟨?_, ?_, ?_, ?_⟩
  · intro hc
    rw [hst] at hc
    cases hc
  · rw [ht, he]
  · rw [he, hv]
  · intro hcon
    rw [ht] at hcon
    cases hcon

theorem finishIngest_pres (s1 : Sys) (doc0 : Document) (o : OCRRun)
    (h : SysInv s1) (hdoc : DocInv doc0) : SysInv (finishIngest s1 doc0 o).2 := by
  unfold finishIngest
  apply process_pres
  intro d hd
  simp only at hd
  rw [List.mem_append] at hd
  cases hd with
  | inl h0 => exact h d h0
  | inr h0 =>
    rw [List.mem_singleton] at h0
    subst h0
    exact hdoc

theorem ingestSingle_pres (guess : String → Option String) (s : Sys) (file : Upload)
    (tags : Option String) (fp mime : String) (h : SysInv s) :
    SysInv (ingestSingle guess s file tags fp mime).2 := by
  unfold ingestSingle
  apply finishIngest_pres
  · intro d hd
    rw [resolveTags_documents] at hd
    have hdocs : ((if strStartsWith mime "image/" = true then
        create_thumbnail guess (save_file s file.filename).2 (save_file s file.filename).1
      else (none, (save_file s file.filename).2)).2).documents = s.documents := by
      by_cases hb : strStartsWith mime "image/" = true
      · rw [if_pos hb, create_thumbnail_documents, save_file_documents]
      · rw [if_neg hb, save_file_documents]
    rw [hdocs] at hd
    exact h d hd
  · exact DocInv_pending_none _ rfl rfl rfl rfl

end OcrDb

namespace OcrDb

theorem ingestZipEntry_pres (guess : String → Option String) (tags : Option String)
    (fp : String) (acc : Sys × List Nat) (e : ZipEntry) (h : SysInv acc.1) :
    SysInv (ingestZipEntry guess tags fp acc e).1 := by
  unfold ingestZipEntry
  by_cases hq : zipQualifies guess acc.1.settings.max_file_size e = true
  · rw [if_pos hq]
    apply finishIngest_pres
    · intro d hd
      rw [resolveTags_documents, save_file_documents] at hd
      exact h d hd
    · exact DocInv_pending_none _ rfl rfl rfl rfl
  · rw [if_neg hq]
    exact h

theorem zipFold_pres (guess : String → Option String) (tags : Option String)
    (fp : String) (entries : List ZipEntry) (acc : Sys × List Nat) (h : SysInv acc.1) :
    SysInv ((entries.foldl (ingestZipEntry guess tags fp) acc).1) := by
  induction entries generalizing acc with
  | nil => exact h
  | cons e es ih =>
    rw [List.foldl_cons]
    exact ih _ (ingestZipEntry_pres guess tags fp acc e h)

theorem create_document_pres (guess : String → Option String) (s : Sys) (file : Upload)
    (tags : Option String) (fp : String) (eng : Option String) (h : SysInv s) :
    SysInv (create_document guess s file tags fp eng).2 := by
  unfold create_document
  by_cases h1 : file.size > s.settings.max_file_size
  · rw [if_pos h1]
    exact h
  · rw [if_neg h1]
    by_cases h2 : (mimeOf file.content_type (guess file.filename) == "application/zip") = true
    · simp only [h2, if_true]
      by_cases h3 : file.size > s.settings.max_zip_size
      · rw [if_pos h3]
        exact h
      · rw [if_neg h3]
        have hfold := zipFold_pres guess tags fp file.entries (s, []) h
        cases hr : (file.entries.foldl (ingestZipEntry guess tags fp) (s, [])).2 with
        | nil =>
          simp only [hr]
          exact hfold
        | cons id0 rest =>
          simp only [hr]
          cases hgd : get_document (file.entries.foldl (ingestZipEntry guess tags fp) (s, [])).1 id0 with
          | some d =>
            simp only [hgd]
            exact hfold
          | none =>
            simp only [hgd]
            exact hfold
    · simp only [h2, Bool.false_eq_true, if_false]
      exact ingestSingle_pres guess s file tags fp _ h

theorem reocr_document_pres (s : Sys) (docId : Nat) (eng : Option String) (o : OCRRun)
    (h : SysInv s) : SysInv (reocr_document s docId eng o).2 := by
  unfold reocr_document
  cases hg : get_document s docId with
  | none => exact h
  | some doc => exact process_pres s docId o h

theorem applyOp_pres (s : Sys) (op : Op) (h : SysInv s) : SysInv (applyOp s op) := by
  cases op with
  | ingest g f t fp e => exact create_document_pres g s f t fp e h
  | reocr docId e o => exact reocr_document_pres s docId e o h

theorem runOps_pres (ops : List Op) (s : Sys) (h : SysInv s) : SysInv (runOps ops s) := by
  unfold runOps
  induction ops generalizing s with
  | nil => exact h
  | cons op ops ih =>
    rw [List.foldl_cons]
    exact ih _ (applyOp_pres s op h)

/-- C2 (amended): in every index state reachable by ingestion, OCR runs
and re-OCR, a COMPLETED document has ocr_text, ocr_engine and
ocr_engine_version populated, and populated fields imply a terminal
status — COMPLETED, or FAILED when a failed re-run kept the fields of an
earlier completed run (the populated-iff-COMPLETED claim fails there). -/
theorem C2_fields_vs_status (ops : List Op) (d : Document)
    (hd : d ∈ (runOps ops initSys).documents) :
    (d.ocr_status = OCRStatus.completed →
      d.ocr_text.isSome = true ∧ d.ocr_engine.isSome = true
        ∧ d.ocr_engine_version.isSome = true)
    ∧ ((d.ocr_text.isSome = true ∨ d.ocr_engine.isSome = true
        ∨ d.ocr_engine_version.isSome = true) →
      d.ocr_status = OCRStatus.completed ∨ d.ocr_status = OCRStatus.failed) := by
  have hinv : SysInv (runOps ops initSys) :=
    runOps_pres ops initSys (by intro d hd; cases hd)
  obtain ⟨h1, h2, h3, h4⟩ := hinv d hd
  constructor
  · intro hc
    have ht := h1 hc
    refine ⟨ht, ?_, ?_⟩
    · rw [← h2]; exact ht
    · rw [← h3, ← h2]; exact ht
  · intro hpop
    apply h4
    cases hpop with
    | inl h0 => exact h0
    | inr h0 =>
      cases h0 with
      | inl h0 => rw [h2]; exact h0
      | inr h0 => rw [h2, h3]; exact h0

/-- Witness for C2: the document produced by one successful ingestion
satisfies both directions of the amended invariant. -/
theorem C2_fields_vs_status_witness :
    (pngDocAfter.ocr_status = OCRStatus.completed →
      pngDocAfter.ocr_text.isSome = true ∧ pngDocAfter.ocr_engine.isSome = true
        ∧ pngDocAfter.ocr_engine_version.isSome = true)
    ∧ ((pngDocAfter.ocr_text.isSome = true ∨ pngDocAfter.ocr_engine.isSome = true
        ∨ pngDocAfter.ocr_engine_version.isSome = true) →
      pngDocAfter.ocr_status = OCRStatus.completed
        ∨ pngDocAfter.ocr_status = OCRStatus.failed) :=
  C2_fields_vs_status opsIngestOk pngDocAfter (by decide)

/-- Counterexample for C2 as stated: ingesting a file (OCR succeeds)
and then re-OCRing it with a failing run leaves a FAILED document whose
ocr_text/engine/version are still populated, so populated iff COMPLETED
is false on this reachable state. -/
theorem C2_populated_iff_completed_counterexample :
    ¬ (∀ d ∈ (runOps opsIngestThenFailedReocr initSys).documents,
        (d.ocr_text.isSome = true ∧ d.ocr_engine.isSome = true
          ∧ d.ocr_engine_version.isSome = true) ↔ d.ocr_status = OCRStatus.completed) := by
  decide

end OcrDb

namespace OcrDb

/-! ### Structural lemmas for the ingestion paths -/

theorem find_append_cons (pre : List Document) (d1 : Document) (rest : List Document)
    (hpre : ∀ d0 ∈ pre, (d0.id == d1.id) = false) :
    (pre ++ d1 :: rest).find? (fun d => d.id == d1.id) = some d1 := by
  rw [List.find?_append]
  have h1 : pre.find? (fun d => d.id == d1.id) = none :=
    List.find?_eq_none.mpr (by intro x hx; simp [hpre x hx])
  rw [h1]
  simp [List.find?_cons]

theorem update2_append (s : Sys) (pre : List Document) (doc : Document) (u1 u2 : DocUpdate)
    (hdocs : s.documents = pre ++ [doc])
    (hpre : ∀ d0 ∈ pre, (d0.id == doc.id) = false) :
    (update_document (update_document s doc.id u1) doc.id u2).documents
      = pre ++ [applyUpdate u2 (applyUpdate u1 doc)] := by
  simp only [update_document, List.map_map, hdocs, List.map_append]
  congr 1
  · have : ∀ d0 ∈ pre,
        ((fun d => if (d.id == doc.id) = true then applyUpdate u2 d else d) ∘
          fun d => if (d.id == doc.id) = true then applyUpdate u1 d else d) d0 = d0 := by
      intro d0 hd0
      simp [Function.comp, hpre d0 hd0]
    calc pre.map _ = pre.map id := List.map_congr_left this
      _ = pre := List.map_id pre
  · simp [Function.comp, applyUpdate_id]

theorem process_append (s : Sys) (pre : List Document) (doc : Document) (o : OCRRun)
    (hdocs : s.documents = pre ++ [doc])
    (hpre : ∀ d0 ∈ pre, (d0.id == doc.id) = false) :
    ∃ d : Document,
      (process_document_ocr s doc.id o).documents = pre ++ [d]
      ∧ d.id = doc.id ∧ d.filename = doc.filename ∧ d.tags = doc.tags
      ∧ (process_document_ocr s doc.id o).tags = s.tags
      ∧ (process_document_ocr s doc.id o).settings = s.settings
      ∧ (process_document_ocr s doc.id o).storage = s.storage
      ∧ (process_document_ocr s doc.id o).nextId = s.nextId
      ∧ (process_document_ocr s doc.id o).clock = s.clock := by
  have hg : get_document s doc.id = some doc := by
    unfold get_document
    rw [hdocs]
    exact find_append_cons pre doc [] hpre
  simp only [process_document_ocr, hg]
  split
  · cases o with
    | ok t e v =>
      exact ⟨_, update2_append s pre doc _ _ hdocs hpre, rfl, rfl, rfl,
        rfl, rfl, rfl, rfl, rfl⟩
    | fail m =>
      exact ⟨_, update2_append s pre doc _ _ hdocs hpre, rfl, rfl, rfl,
        rfl, rfl, rfl, rfl, rfl⟩
  · exact ⟨_, update2_append s pre doc _ _ hdocs hpre, rfl, rfl, rfl,
      rfl, rfl, rfl, rfl, rfl⟩

theorem save_file_state (s : Sys) (f : String) :
    (save_file s f).2.documents = s.documents
    ∧ (save_file s f).2.tags = s.tags
    ∧ (save_file s f).2.settings = s.settings
    ∧ (save_file s f).2.clock = s.clock
    ∧ (save_file s f).2.nextId = s.nextId + 1 :=
  ⟨rfl, rfl, rfl, rfl, rfl⟩

theorem create_thumbnail_state (g : String → Option String) (s : Sys) (p : String) :
    (create_thumbnail g s p).2.documents = s.documents
    ∧ (create_thumbnail g s p).2.tags = s.tags
    ∧ (create_thumbnail g s p).2.settings = s.settings
    ∧ (create_thumbnail g s p).2.clock = s.clock
    ∧ s.nextId ≤ (create_thumbnail g s p).2.nextId := by
  unfold create_thumbnail
  by_cases h1 : storageHas s p = true
  · rw [if_pos h1]
    cases g p with
    | none => exact ⟨rfl, rfl, rfl, rfl, Nat.le_refl _⟩
    | some m =>
      by_cases h2 : strStartsWith m "image/" = true
      · simp only [h2, if_true]
        exact ⟨rfl, rfl, rfl, rfl, Nat.le_succ _⟩
      · simp only [h2]
        exact ⟨rfl, rfl, rfl, rfl, Nat.le_refl _⟩
  · rw [if_neg h1]
    exact ⟨rfl, rfl, rfl, rfl, Nat.le_refl _⟩

theorem preTagState_state (guess : String → Option String) (s : Sys) (file : Upload)
    (mime : String) :
    (preTagState guess s file mime).documents = s.documents
    ∧ (preTagState guess s file mime).tags = s.tags
    ∧ (preTagState guess s file mime).settings = s.settings
    ∧ (preTagState guess s file mime).clock = s.clock
    ∧ s.nextId ≤ (preTagState guess s file mime).nextId := by
  unfold preTagState preThumbState
  by_cases hb : strStartsWith mime "image/" = true
  · simp only [hb, if_true]
    obtain ⟨h1, h2, h3, h4, h5⟩ := create_thumbnail_state guess (save_file s file.filename).2
      (save_file s file.filename).1
    refine ⟨?_, ?_, ?_, ?_, ?_⟩
    · rw [h1, save_file_documents]
    · rw [h2]; rfl
    · rw [h3]; rfl
    · rw [h4]; rfl
    · exact Nat.le_trans (Nat.le_succ _) h5
  · simp only [hb]
    exact ⟨rfl, rfl, rfl, rfl, Nat.le_succ _⟩

theorem resolveStep_state (acc : Sys × List Tag) (n : String) :
    (resolveStep acc n).1.documents = acc.1.documents
    ∧ (resolveStep acc n).1.storage = acc.1.storage
    ∧ (resolveStep acc n).1.settings = acc.1.settings
    ∧ (resolveStep acc n).1.clock = acc.1.clock
    ∧ acc.1.nextId ≤ (resolveStep acc n).1.nextId := by
  unfold resolveStep
  by_cases h : (n == "") = true
  · rw [if_pos h]
    exact ⟨rfl, rfl, rfl, rfl, Nat.le_refl _⟩
  · rw [if_neg h]
    cases get_tag_by_name acc.1 n with
    | some t => exact ⟨rfl, rfl, rfl, rfl, Nat.le_refl _⟩
    | none => exact ⟨rfl, rfl, rfl, rfl, Nat.le_succ _⟩

theorem resolveFold_state (names : List String) (acc : Sys × List Tag) :
    ((names.foldl resolveStep acc).1).documents = acc.1.documents
    ∧ ((names.foldl resolveStep acc).1).storage = acc.1.storage
    ∧ ((names.foldl resolveStep acc).1).settings = acc.1.settings
    ∧ ((names.foldl resolveStep acc).1).clock = acc.1.clock
    ∧ acc.1.nextId ≤ ((names.foldl resolveStep acc).1).nextId := by
  induction names generalizing acc with
  | nil => exact ⟨rfl, rfl, rfl, rfl, Nat.le_refl _⟩
  | cons n ns ih =>
    rw [List.foldl_cons]
    obtain ⟨s1, s2, s3, s4, s5⟩ := resolveStep_state acc n
    obtain ⟨i1, i2, i3, i4, i5⟩ := ih (resolveStep acc n)
    exact ⟨by rw [i1, s1], by rw [i2, s2], by rw [i3, s3], by rw [i4, s4],
      Nat.le_trans s5 i5⟩

theorem resolveTags_state (s : Sys) (tags : Option String) :
    (resolveTags s tags).1.documents = s.documents
    ∧ (resolveTags s tags).1.storage = s.storage
    ∧ (resolveTags s tags).1.settings = s.settings
    ∧ (resolveTags s tags).1.clock = s.clock
    ∧ s.nextId ≤ (resolveTags s tags).1.nextId :=
  resolveFold_state _ _

theorem create_document_single (guess : String → Option String) (s : Sys) (file : Upload)
    (tags : Option String) (fp : String) (eng : Option String)
    (hsz : ¬ file.size > s.settings.max_file_size)
    (hm : (mimeOf file.content_type (guess file.filename) == "application/zip") = false) :
    create_document guess s file tags fp eng
      = ingestSingle guess s file tags fp (mimeOf file.content_type (guess file.filename)) := by
  unfold create_document
  rw [if_neg hsz]
  simp only [hm, Bool.false_eq_true, if_false]

end OcrDb


namespace OcrDb

theorem finishIngest_spec (s1 : Sys) (doc0 : Document) (o : OCRRun)
    (hid : doc0.id = s1.nextId) (hfresh : DocsFresh s1) :
    ∃ d : Document,
      (finishIngest s1 doc0 o).1 = d
      ∧ (finishIngest s1 doc0 o).2.documents = s1.documents ++ [d]
      ∧ d.id = doc0.id ∧ d.filename = doc0.filename ∧ d.tags = doc0.tags
      ∧ (finishIngest s1 doc0 o).2.tags = s1.tags
      ∧ (finishIngest s1 doc0 o).2.settings = s1.settings
      ∧ (finishIngest s1 doc0 o).2.storage = s1.storage
      ∧ (finishIngest s1 doc0 o).2.nextId = s1.nextId + 1
      ∧ (finishIngest s1 doc0 o).2.clock = s1.clock + 1
      ∧ DocsFresh (finishIngest s1 doc0 o).2 := by
  have hpre : ∀ d0 ∈ s1.documents, (d0.id == doc0.id) = false := by
    intro d0 hd0
    have hlt : d0.id < doc0.id := by
      rw [hid]
      exact hfresh d0 hd0
    simp [Nat.ne_of_lt hlt]
  obtain ⟨d, hdocs, hdid, hdfn, hdtags, htg, hset, hstor, hnid, hclk⟩ :=
    process_append { s1 with
        documents := s1.documents ++ [doc0],
        nextId := s1.nextId + 1, clock := s1.clock + 1 } s1.documents doc0 o rfl hpre
  have hget : get_document (process_document_ocr { s1 with
      documents := s1.documents ++ [doc0],
      nextId := s1.nextId + 1, clock := s1.clock + 1 } doc0.id o) doc0.id = some d := by
    unfold get_document
    rw [hdocs, ← hdid]
    exact find_append_cons s1.documents d [] (by
      intro d0 hd0
      rw [hdid]
      exact hpre d0 hd0)
  simp only [finishIngest]
  refine ⟨d, ?_, hdocs, hdid, hdfn, hdtags, htg, hset, hstor, hnid, hclk, ?_⟩
  · rw [hget]
    rfl
  · intro d2 hd2
    rw [hdocs, List.mem_append] at hd2
    rw [hnid]
    cases hd2 with
    | inl h0 =>
      exact Nat.lt_trans (hfresh d2 h0) (Nat.lt_succ_self _)
    | inr h0 =>
      rw [List.mem_singleton] at h0
      subst h0
      rw [hdid, hid]
      exact Nat.lt_succ_self _

theorem ingestSingle_eq (guess : String → Option String) (s : Sys) (file : Upload)
    (tags : Option String) (fp mime : String) :
    ingestSingle guess s file tags fp mime
      = (Except.ok (finishIngest (resolveTags (preTagState guess s file mime) tags).1
            (mkIngestDoc file.filename mime file.size fp (save_file s file.filename).1
              (preThumbState guess s file mime).1
              (resolveTags (preTagState guess s file mime) tags).1
              (resolveTags (preTagState guess s file mime) tags).2)
            file.outcome).1,
         (finishIngest (resolveTags (preTagState guess s file mime) tags).1
            (mkIngestDoc file.filename mime file.size fp (save_file s file.filename).1
              (preThumbState guess s file mime).1
              (resolveTags (preTagState guess s file mime) tags).1
              (resolveTags (preTagState guess s file mime) tags).2)
            file.outcome).2) := rfl

theorem ingestSingle_spec (guess : String → Option String) (s : Sys) (file : Upload)
    (tags : Option String) (fp mime : String) (hfresh : DocsFresh s) :
    ∃ d : Document,
      (ingestSingle guess s file tags fp mime).1 = Except.ok d
      ∧ (ingestSingle guess s file tags fp mime).2.documents = s.documents ++ [d]
      ∧ d.filename = file.filename
      ∧ d.tags = (resolveTags (preTagState guess s file mime) tags).2
      ∧ (ingestSingle guess s file tags fp mime).2.tags
          = (resolveTags (preTagState guess s file mime) tags).1.tags
      ∧ (ingestSingle guess s file tags fp mime).2.settings = s.settings
      ∧ s.nextId ≤ d.id
      ∧ DocsFresh (ingestSingle guess s file tags fp mime).2 := by
  obtain ⟨hpd, hptags, hpset, hpclk, hpnid⟩ := preTagState_state guess s file mime
  obtain ⟨hrd, hrstor, hrset, hrclk, hrnid⟩ :=
    resolveTags_state (preTagState guess s file mime) tags
  have hfresh1 : DocsFresh (resolveTags (preTagState guess s file mime) tags).1 := by
    intro d0 hd0
    rw [hrd, hpd] at hd0
    exact Nat.lt_of_lt_of_le (hfresh d0 hd0) (Nat.le_trans hpnid hrnid)
  obtain ⟨d, hr1, hdocs, hdid, hdfn, hdtags, hstags, hsset, hsstor, hsnid, hsclk, hfr⟩ :=
    finishIngest_spec (resolveTags (preTagState guess s file mime) tags).1
      (mkIngestDoc file.filename mime file.size fp (save_file s file.filename).1
        (preThumbState guess s file mime).1
        (resolveTags (preTagState guess s file mime) tags).1
        (resolveTags (preTagState guess s file mime) tags).2)
      file.outcome rfl hfresh1
  rw [ingestSingle_eq]
  refine ⟨d, ?_, ?_, ?_, ?_, ?_, ?_, ?_, ?_⟩
  · rw [hr1]
  · rw [hdocs, hrd, hpd]
  · rw [hdfn]
    rfl
  · rw [hdtags]
    rfl
  · rw [hstags]
  · rw [hsset, hrset, hpset]
  · rw [hdid]
    show s.nextId ≤ (resolveTags (preTagState guess s file mime) tags).1.nextId
    exact Nat.le_trans hpnid hrnid
  · exact hfr

end OcrDb

namespace OcrDb

theorem ingestZipEntry_skip (guess : String → Option String) (tags : Option String)
    (fp : String) (acc : Sys × List Nat) (e : ZipEntry)
    (hq : zipQualifies guess acc.1.settings.max_file_size e = false) :
    ingestZipEntry guess tags fp acc e = acc := by
  unfold ingestZipEntry
  rw [hq]
  rfl

theorem ingestZipEntry_eq (guess : String → Option String) (tags : Option String)
    (fp : String) (s : Sys) (ids : List Nat) (e : ZipEntry)
    (hq : zipQualifies guess s.settings.max_file_size e = true) :
    ingestZipEntry guess tags fp (s, ids) e
      = ((finishIngest (resolveTags (save_file s e.filename).2 tags).1
            (mkIngestDoc (basename e.filename)
              ((guess e.filename).getD "application/octet-stream") e.file_size fp
              (save_file s e.filename).1 none
              (resolveTags (save_file s e.filename).2 tags).1
              (resolveTags (save_file s e.filename).2 tags).2)
            e.outcome).2,
         ids ++ [(mkIngestDoc (basename e.filename)
              ((guess e.filename).getD "application/octet-stream") e.file_size fp
              (save_file s e.filename).1 none
              (resolveTags (save_file s e.filename).2 tags).1
              (resolveTags (save_file s e.filename).2 tags).2).id]) := by
  unfold ingestZipEntry
  rw [hq]
  rfl

theorem ingestZipEntry_spec (guess : String → Option String) (tags : Option String)
    (fp : String) (s : Sys) (ids : List Nat) (e : ZipEntry)
    (hq : zipQualifies guess s.settings.max_file_size e = true)
    (hfresh : DocsFresh s) :
    ∃ d : Document,
      (ingestZipEntry guess tags fp (s, ids) e).1.documents = s.documents ++ [d]
      ∧ (ingestZipEntry guess tags fp (s, ids) e).2 = ids ++ [d.id]
      ∧ d.filename = basename e.filename
      ∧ s.nextId ≤ d.id
      ∧ (ingestZipEntry guess tags fp (s, ids) e).1.settings = s.settings
      ∧ s.nextId ≤ (ingestZipEntry guess tags fp (s, ids) e).1.nextId
      ∧ DocsFresh (ingestZipEntry guess tags fp (s, ids) e).1 := by
  obtain ⟨hrd, hrstor, hrset, hrclk, hrnid⟩ :=
    resolveTags_state (save_file s e.filename).2 tags
  have hnid0 : s.nextId ≤ (resolveTags (save_file s e.filename).2 tags).1.nextId := by
    refine Nat.le_trans ?_ hrnid
    exact Nat.le_succ _
  have hfresh1 : DocsFresh (resolveTags (save_file s e.filename).2 tags).1 := by
    intro d0 hd0
    rw [hrd, save_file_documents] at hd0
    exact Nat.lt_of_lt_of_le (hfresh d0 hd0) hnid0
  obtain ⟨d, hr1, hdocs, hdid, hdfn, hdtags, hstags, hsset, hsstor, hsnid, hsclk, hfr⟩ :=
    finishIngest_spec (resolveTags (save_file s e.filename).2 tags).1
      (mkIngestDoc (basename e.filename)
        ((guess e.filename).getD "application/octet-stream") e.file_size fp
        (save_file s e.filename).1 none
        (resolveTags (save_file s e.filename).2 tags).1
        (resolveTags (save_file s e.filename).2 tags).2)
      e.outcome rfl hfresh1
  rw [ingestZipEntry_eq guess tags fp s ids e hq]
  refine ⟨d, ?_, ?_, ?_, ?_, ?_, ?_, ?_⟩
  · rw [hdocs, hrd, save_file_documents]
  · rw [hdid]
  · rw [hdfn]
    rfl
  · rw [hdid]
    exact hnid0
  · rw [hsset, hrset]
    rfl
  · rw [hsnid]
    exact Nat.le_trans hnid0 (Nat.le_succ _)
  · exact hfr

end OcrDb

namespace OcrDb

theorem zipFold_spec (guess : String → Option String) (tags : Option String) (fp : String)
    (entries : List ZipEntry) :
    ∀ (s : Sys) (ids : List Nat), DocsFresh s →
    ∃ newDocs : List Document,
      (entries.foldl (ingestZipEntry guess tags fp) (s, ids)).1.documents
        = s.documents ++ newDocs
      ∧ newDocs.map Document.filename
        = (entries.filter (zipQualifies guess s.settings.max_file_size)).map
            (fun e => basename e.filename)
      ∧ (entries.foldl (ingestZipEntry guess tags fp) (s, ids)).2
        = ids ++ newDocs.map Document.id
      ∧ (∀ d ∈ newDocs, s.nextId ≤ d.id)
      ∧ (entries.foldl (ingestZipEntry guess tags fp) (s, ids)).1.settings = s.settings
      ∧ DocsFresh (entries.foldl (ingestZipEntry guess tags fp) (s, ids)).1 := by
  induction entries with
  | nil =>
    intro s ids hfresh
    exact ⟨[], by simp, by simp, by simp, by simp, rfl, hfresh⟩
  | cons e es ih =>
    intro s ids hfresh
    rw [List.foldl_cons]
    by_cases hq : zipQualifies guess s.settings.max_file_size e = true
    · obtain ⟨d1, h1docs, h1ids, h1fn, h1le, h1set, h1nid, h1fr⟩ :=
        ingestZipEntry_spec guess tags fp s ids e hq hfresh
      obtain ⟨nd, hdocs, hfn, hids, hle, hset, hfr⟩ :=
        ih (ingestZipEntry guess tags fp (s, ids) e).1
           (ingestZipEntry guess tags fp (s, ids) e).2 h1fr
      refine ⟨d1 :: nd, ?_, ?_, ?_, ?_, ?_, ?_⟩
      · rw [hdocs, h1docs, List.append_assoc, List.singleton_append]
      · rw [List.map_cons, List.filter_cons_of_pos hq, List.map_cons, h1fn]
        congr 1
        rw [hfn, h1set]
      · rw [hids, h1ids, List.append_assoc, List.singleton_append, List.map_cons]
      · intro d hd
        rw [List.mem_cons] at hd
        cases hd with
        | inl h0 =>
          subst h0
          exact h1le
        | inr h0 =>
          exact Nat.le_trans h1nid (hle d h0)
      · rw [hset, h1set]
      · exact hfr
    · have hq2 : zipQualifies guess s.settings.max_file_size e = false := by
        revert hq
        cases zipQualifies guess s.settings.max_file_size e <;> simp
      rw [ingestZipEntry_skip guess tags fp (s, ids) e hq2,
        List.filter_cons_of_neg (by simp [hq2])]
      exact ih s ids hfresh

end OcrDb

namespace OcrDb

theorem create_zip_spec (guess : String → Option String) (s : Sys) (file : Upload)
    (tags : Option String) (fp : String) (eng : Option String)
    (hfresh : DocsFresh s)
    (hsz1 : ¬ file.size > s.settings.max_file_size)
    (hm : (mimeOf file.content_type (guess file.filename) == "application/zip") = true)
    (hsz2 : ¬ file.size > s.settings.max_zip_size) :
    ∃ newDocs : List Document,
      (create_document guess s file tags fp eng).2.documents = s.documents ++ newDocs
      ∧ newDocs.map Document.filename
        = (file.entries.filter (zipQualifies guess s.settings.max_file_size)).map
            (fun e => basename e.filename)
      ∧ (newDocs = [] →
          (create_document guess s file tags fp eng).1 = Except.error emptyArchiveErr)
      ∧ (∀ d1 rest, newDocs = d1 :: rest →
          (create_document guess s file tags fp eng).1 = Except.ok d1) := by
  have heq : create_document guess s file tags fp eng
      = (match (file.entries.foldl (ingestZipEntry guess tags fp) (s, [])).2 with
         | [] => (Except.error emptyArchiveErr,
             (file.entries.foldl (ingestZipEntry guess tags fp) (s, [])).1)
         | id0 :: _ =>
           match get_document
               (file.entries.foldl (ingestZipEntry guess tags fp) (s, [])).1 id0 with
           | some d => (Except.ok d,
               (file.entries.foldl (ingestZipEntry guess tags fp) (s, [])).1)
           | none => (Except.error emptyArchiveErr,
               (file.entries.foldl (ingestZipEntry guess tags fp) (s, [])).1)) := by
    unfold create_document
    rw [if_neg hsz1]
    simp only [hm, if_true]
    rw [if_neg hsz2]
  obtain ⟨nd, hdocs, hfn, hids, hle, hset, hfr⟩ :=
    zipFold_spec guess tags fp file.entries s [] hfresh
  have h2nd : (create_document guess s file tags fp eng).2
      = (file.entries.foldl (ingestZipEntry guess tags fp) (s, [])).1 := by
    rw [heq]
    split
    · rfl
    · split <;> rfl
  refine ⟨nd, ?_, hfn, ?_, ?_⟩
  · rw [h2nd, hdocs]
  · intro h0
    have hids0 : (file.entries.foldl (ingestZipEntry guess tags fp) (s, [])).2 = [] := by
      rw [hids, h0]
      rfl
    rw [heq]
    simp only [hids0]
  · intro d1 rest h0
    have hids1 : (file.entries.foldl (ingestZipEntry guess tags fp) (s, [])).2
        = d1.id :: rest.map Document.id := by
      rw [hids, h0]
      rfl
    have hpre : ∀ d0 ∈ s.documents, (d0.id == d1.id) = false := by
      intro d0 hd0
      have hlt : d0.id < d1.id := by
        refine Nat.lt_of_lt_of_le (hfresh d0 hd0) ?_
        refine hle d1 ?_
        rw [h0]
        exact List.mem_cons_self d1 rest
      simp [Nat.ne_of_lt hlt]
    have hget : get_document
        (file.entries.foldl (ingestZipEntry guess tags fp) (s, [])).1 d1.id = some d1 := by
      unfold get_document
      rw [hdocs, h0]
      exact find_append_cons s.documents d1 rest hpre
    rw [heq]
    simp only [hids1, hget]

end OcrDb

namespace OcrDb

theorem initSys_fresh : DocsFresh initSys := fun d hd => absurd hd (List.not_mem_nil d)

/-- C4: for an ingested ZIP within both size limits, exactly the
entries that are not directories, fit the single-file limit, and whose
guessed MIME type is an image or PDF each produce one created Document
(in order, named by the entry basename); zero surviving entries fail
with the EmptyArchive 400. -/
theorem C4_zip_expansion (guess : String → Option String) (s : Sys) (file : Upload)
    (tags : Option String) (fp : String) (eng : Option String)
    (hfresh : DocsFresh s)
    (hsz1 : ¬ file.size > s.settings.max_file_size)
    (hm : (mimeOf file.content_type (guess file.filename) == "application/zip") = true)
    (hsz2 : ¬ file.size > s.settings.max_zip_size) :
    ((create_document guess s file tags fp eng).2.documents.map Document.filename
      = s.documents.map Document.filename
        ++ (file.entries.filter (zipQualifies guess s.settings.max_file_size)).map
             (fun e => basename e.filename))
    ∧ (file.entries.filter (zipQualifies guess s.settings.max_file_size) = [] →
        (create_document guess s file tags fp eng).1 = Except.error emptyArchiveErr) := by
  obtain ⟨nd, h1, h2, h3, h4⟩ := create_zip_spec guess s file tags fp eng hfresh hsz1 hm hsz2
  constructor
  · rw [h1, List.map_append, h2]
  · intro hq
    apply h3
    have h2b := h2
    rw [hq] at h2b
    simp only [List.map_nil] at h2b
    exact List.map_eq_nil_iff.mp h2b

/-- Witness for C4: the 4-entry archive (2 qualifying images, 1 text
entry, 1 oversized image) produces exactly the 2 image Documents, and
an archive with no qualifying entry fails with EmptyArchive. -/
theorem C4_zip_expansion_witness :
    (create_document guessZip initSys zipUpload none "/" none).2.documents.map Document.filename
      = ["img1.png", "img2.png"]
    ∧ (create_document guessZip initSys zipUploadBad none "/" none).1
      = Except.error emptyArchiveErr := by
  constructor
  · have h := (C4_zip_expansion guessZip initSys zipUpload none "/" none initSys_fresh
      (by decide) (by decide) (by decide)).1
    rw [h]
    decide
  · exact (C4_zip_expansion guessZip initSys zipUploadBad none "/" none initSys_fresh
      (by decide) (by decide) (by decide)).2 (by decide)

/-- C5: a ZIP ingestion with at least one surviving entry returns
exactly the first created Document, and all N created Documents are in
the index after the call (the index grew by exactly N). -/
theorem C5_zip_returns_first (guess : String → Option String) (s : Sys) (file : Upload)
    (tags : Option String) (fp : String) (eng : Option String)
    (hfresh : DocsFresh s)
    (hsz1 : ¬ file.size > s.settings.max_file_size)
    (hm : (mimeOf file.content_type (guess file.filename) == "application/zip") = true)
    (hsz2 : ¬ file.size > s.settings.max_zip_size)
    (hne : file.entries.filter (zipQualifies guess s.settings.max_file_size) ≠ []) :
    ∃ d : Document,
      (create_document guess s file tags fp eng).1 = Except.ok d
      ∧ ((create_document guess s file tags fp eng).2.documents.drop
          s.documents.length).head? = some d
      ∧ (create_document guess s file tags fp eng).2.documents.length
        = s.documents.length
          + (file.entries.filter (zipQualifies guess s.settings.max_file_size)).length := by
  obtain ⟨nd, h1, h2, h3, h4⟩ := create_zip_spec guess s file tags fp eng hfresh hsz1 hm hsz2
  have hlen : nd.length
      = (file.entries.filter (zipQualifies guess s.settings.max_file_size)).length := by
    have hc := congrArg List.length h2
    simpa using hc
  cases hnd : nd with
  | nil =>
    exfalso
    apply hne
    rw [hnd] at hlen
    exact (List.length_eq_zero.mp hlen.symm)
  | cons d1 rest =>
    refine ⟨d1, h4 d1 rest hnd, ?_, ?_⟩
    · rw [h1, hnd, List.drop_left, List.head?_cons]
    · rw [h1, List.length_append, hlen]

/-- Witness for C5: on the 4-entry example archive the call returns
the first of the two created Documents and the index holds both. -/
theorem C5_zip_returns_first_witness :
    ∃ d : Document,
      (create_document guessZip initSys zipUpload none "/" none).1 = Except.ok d
      ∧ ((create_document guessZip initSys zipUpload none "/" none).2.documents.drop
          initSys.documents.length).head? = some d
      ∧ (create_document guessZip initSys zipUpload none "/" none).2.documents.length
        = initSys.documents.length
          + (zipUpload.entries.filter
              (zipQualifies guessZip initSys.settings.max_file_size)).length :=
  C5_zip_returns_first guessZip initSys zipUpload none "/" none initSys_fresh (by decide)
    (by decide) (by decide) (by decide)

end OcrDb

namespace OcrDb

/-! ### Tag resolution lemmas -/

theorem get_tag_by_name_none (s : Sys) (n : String)
    (h : ∀ tg ∈ s.tags, strLower tg.name ≠ strLower n) :
    get_tag_by_name s n = none := by
  unfold get_tag_by_name
  exact List.find?_eq_none.mpr (by intro tg htg; simp [h tg htg])

theorem resolveTags_single_new (si : Sys) (t : Option String) (n : String)
    (hna : tagNamesOf t = [n]) (hn : (n == "") = false)
    (hnone : get_tag_by_name si n = none) :
    resolveTags si t
      = ({ si with
            tags := si.tags ++ [{ id := si.nextId, name := n }],
            nextId := si.nextId + 1 },
         [{ id := si.nextId, name := n }]) := by
  unfold resolveTags
  rw [hna]
  simp only [List.foldl_cons, List.foldl_nil, resolveStep, hn, Bool.false_eq_true,
    if_false, hnone, List.nil_append]

theorem resolveTags_single_found (si : Sys) (t : Option String) (n : String) (tg : Tag)
    (hna : tagNamesOf t = [n]) (hn : (n == "") = false)
    (hsome : get_tag_by_name si n = some tg) :
    resolveTags si t = (si, [tg]) := by
  unfold resolveTags
  rw [hna]
  simp only [List.foldl_cons, List.foldl_nil, resolveStep, hn, Bool.false_eq_true,
    if_false, hsome, List.nil_append]

end OcrDb

namespace OcrDb

/-- C8: tag resolution at ingestion is case-insensitive and
idempotent: ingesting two single files whose (single) tag names agree up
to letter case, starting from an index holding no tag of that name,
leaves exactly one new Tag in the index, and both created Documents
reference that same Tag. -/
theorem C8_tag_resolution_idempotent (guess1 guess2 : String → Option String) (s : Sys) (f1 f2 : Upload)
    (t1 t2 : Option String) (n1 n2 : String) (fp1 fp2 : String) (e1 e2 : Option String)
    (hfresh : DocsFresh s)
    (hna1 : tagNamesOf t1 = [n1]) (hna2 : tagNamesOf t2 = [n2])
    (hn1 : (n1 == "") = false) (hn2 : (n2 == "") = false)
    (hl : strLower n1 = strLower n2)
    (hnew : ∀ tg ∈ s.tags, strLower tg.name ≠ strLower n1)
    (hsz1 : ¬ f1.size > s.settings.max_file_size)
    (hm1 : (mimeOf f1.content_type (guess1 f1.filename) == "application/zip") = false)
    (hsz2 : ¬ f2.size > s.settings.max_file_size)
    (hm2 : (mimeOf f2.content_type (guess2 f2.filename) == "application/zip") = false) :
    ∃ (tg : Tag) (d1 d2 : Document),
      (create_document guess2 (create_document guess1 s f1 t1 fp1 e1).2
          f2 t2 fp2 e2).2.tags = s.tags ++ [tg]
      ∧ tg.name = n1
      ∧ (create_document guess2 (create_document guess1 s f1 t1 fp1 e1).2
          f2 t2 fp2 e2).2.documents = s.documents ++ [d1, d2]
      ∧ d1.tags = [tg] ∧ d2.tags = [tg] := by
  have hc1 : create_document guess1 s f1 t1 fp1 e1
      = ingestSingle guess1 s f1 t1 fp1 (mimeOf f1.content_type (guess1 f1.filename)) :=
    create_document_single guess1 s f1 t1 fp1 e1 hsz1 hm1
  obtain ⟨hpd1, hptags1, hpset1, hpclk1, hpnid1⟩ :=
    preTagState_state guess1 s f1 (mimeOf f1.content_type (guess1 f1.filename))
  have hnone1 : get_tag_by_name
      (preTagState guess1 s f1 (mimeOf f1.content_type (guess1 f1.filename))) n1 = none := by
    apply get_tag_by_name_none
    intro tg htg
    rw [hptags1] at htg
    exact hnew tg htg
  have hres1 := resolveTags_single_new
    (preTagState guess1 s f1 (mimeOf f1.content_type (guess1 f1.filename))) t1 n1
    hna1 hn1 hnone1
  obtain ⟨d1, h1ok, h1docs, h1fn, h1tags, h1stags, h1sset, h1nid, h1fr⟩ :=
    ingestSingle_spec guess1 s f1 t1 fp1 (mimeOf f1.content_type (guess1 f1.filename)) hfresh
  rw [hres1] at h1tags h1stags
  dsimp only at h1tags h1stags
  rw [hptags1] at h1stags
  have hsz2b : ¬ f2.size >
      (ingestSingle guess1 s f1 t1 fp1
        (mimeOf f1.content_type (guess1 f1.filename))).2.settings.max_file_size := by
    rw [h1sset]
    exact hsz2
  have hc2 : create_document guess2
        (ingestSingle guess1 s f1 t1 fp1 (mimeOf f1.content_type (guess1 f1.filename))).2
        f2 t2 fp2 e2
      = ingestSingle guess2
          (ingestSingle guess1 s f1 t1 fp1 (mimeOf f1.content_type (guess1 f1.filename))).2
          f2 t2 fp2 (mimeOf f2.content_type (guess2 f2.filename)) :=
    create_document_single guess2 _ f2 t2 fp2 e2 hsz2b hm2
  obtain ⟨hpd2, hptags2, hpset2, hpclk2, hpnid2⟩ :=
    preTagState_state guess2
      (ingestSingle guess1 s f1 t1 fp1 (mimeOf f1.content_type (guess1 f1.filename))).2
      f2 (mimeOf f2.content_type (guess2 f2.filename))
  have hsome2 : get_tag_by_name
      (preTagState guess2
        (ingestSingle guess1 s f1 t1 fp1 (mimeOf f1.content_type (guess1 f1.filename))).2
        f2 (mimeOf f2.content_type (guess2 f2.filename))) n2
      = some { id := (preTagState guess1 s f1
          (mimeOf f1.content_type (guess1 f1.filename))).nextId, name := n1 } := by
    unfold get_tag_by_name
    rw [hptags2, h1stags]
    rw [List.find?_append]
    have hnone : s.tags.find? (fun tg => strLower tg.name == strLower n2) = none := by
      apply List.find?_eq_none.mpr
      intro tg htg
      have hne := hnew tg htg
      rw [hl] at hne
      simp [hne]
    rw [hnone]
    have hc : (strLower n1 == strLower n2) = true := by
      rw [hl]
      simp
    simp [List.find?_cons, hc]
  have hres2 := resolveTags_single_found
    (preTagState guess2
      (ingestSingle guess1 s f1 t1 fp1 (mimeOf f1.content_type (guess1 f1.filename))).2
      f2 (mimeOf f2.content_type (guess2 f2.filename))) t2 n2
    { id := (preTagState guess1 s f1
        (mimeOf f1.content_type (guess1 f1.filename))).nextId, name := n1 }
    hna2 hn2 hsome2
  obtain ⟨d2, h2ok, h2docs, h2fn, h2tags, h2stags, h2sset, h2nid, h2fr⟩ :=
    ingestSingle_spec guess2
      (ingestSingle guess1 s f1 t1 fp1 (mimeOf f1.content_type (guess1 f1.filename))).2
      f2 t2 fp2 (mimeOf f2.content_type (guess2 f2.filename)) h1fr
  rw [hres2] at h2tags h2stags
  dsimp only at h2tags h2stags
  rw [hptags2, h1stags] at h2stags
  refine ⟨{ id := (preTagState guess1 s f1
      (mimeOf f1.content_type (guess1 f1.filename))).nextId, name := n1 },
    d1, d2, ?_, rfl, ?_, h1tags, h2tags⟩
  · rw [hc1, hc2]
    exact h2stags
  · rw [hc1, hc2, h2docs, h1docs, List.append_assoc]
    rfl

end OcrDb

namespace OcrDb

/-- Witness for C8: ingesting two files tagged Report and report on a
fresh system yields one Tag named Report shared by both documents. -/
theorem C8_tag_resolution_idempotent_witness :
    ∃ (tg : Tag) (d1 d2 : Document),
      (create_document guessNone (create_document guessNone initSys reportUpload1
          (some "Report") "/" none).2 reportUpload2 (some "report") "/" none).2.tags
        = initSys.tags ++ [tg]
      ∧ tg.name = "Report"
      ∧ (create_document guessNone (create_document guessNone initSys reportUpload1
          (some "Report") "/" none).2 reportUpload2 (some "report") "/" none).2.documents
        = initSys.documents ++ [d1, d2]
      ∧ d1.tags = [tg] ∧ d2.tags = [tg] :=
  C8_tag_resolution_idempotent guessNone guessNone initSys reportUpload1 reportUpload2 (some "Report") (some "report")
    "Report" "report" "/" "/" none none initSys_fresh (by decide) (by decide) (by decide)
    (by decide) (by decide) (by decide) (by decide) (by decide) (by decide) (by decide)

end OcrDb
